import Mathlib

/-!
Verification of the DeepResearch retrieval/filtering pipeline.

Shallow embedding of the core pipeline of the repository:
`deep_research/processing.py` (quality gate, content extraction, semantic
deduplication), `deep_research/search.py` (retry loops, relevance gate,
citation gate, source orchestration) and `deep_research/core.py`
(filter-and-dedup pipeline).

Text is modelled as `List Char` (Python `str`, `len` = character count).
External collaborators (the trafilatura extraction pass, the TF-IDF cosine
similarity matrix from sklearn, HTTP responses, the LLM judge, page fetches)
are modelled as explicit oracle parameters; everything the repository's own
code computes is translated directly.
-/

namespace DeepResearch

/-- config.py: `EST_CHAR_PER_TOKEN = 4`. -/
def EST_CHAR_PER_TOKEN : Nat := 4

/-- processing.py: the fixed closed set `HYPE_PATTERNS`. -/
def HYPE_PATTERNS : List String :=
  ["buy now", "order now", "click here", "call now", "add to cart",
   "sign up today", "subscribe now", "book now", "limited offer"]

/-- Metadata dictionary shapes produced by the two fetchers (`search.py`);
`emptyMeta` models the default `{}` of `Snippet.__init__`. -/
inductive Metadata where
  | emptyMeta : Metadata
  | web (description : Option String) : Metadata
  | academic (year : Option Int) (journal : Option String) (citations : Int)
      (authors : List String) (has_open_access : Bool) : Metadata
deriving DecidableEq

/-- processing.py: class `Snippet`. -/
structure Snippet where
  title : String
  body : List Char
  url : Option String
  ref_num : Option Nat
  source_type : String
  metadata : Metadata
  abstract : Option String
deriving DecidableEq

/-- processing.py: `token_count(text) = len(text) // EST_CHAR_PER_TOKEN`. -/
def token_count (text : List Char) : Nat := text.length / EST_CHAR_PER_TOKEN

/-- processing.py: the structural-tag heuristic of `compress_text`:
`"<html" in html.lower() or "<body" in html.lower() or "<div" in html.lower()`. -/
def looks_like_html (lower : List Char) : Bool :=
  decide ("<html".data <:+: lower) || decide ("<body".data <:+: lower) ||
    decide ("<div".data <:+: lower)

/-- processing.py: `compress_text(html, max_tokens)`.  The trafilatura
main-content extraction pass is external and supplied as the oracle
`extract`; `none` and `some []` both model a falsy (`None` / empty)
extraction result, exactly as `if not text` treats them. -/
def compress_text (extract : List Char → Option (List Char))
    (html : List Char) (max_tokens : Nat) : List Char :=
  if html.length < 10 then []
  else
    let lower := html.map Char.toLower
    let textOpt : Option (List Char) :=
      if looks_like_html lower = false then some html
      else
        match extract html with
        | none => none
        | some t => if t = [] then none else some t
    match textOpt with
    | some text =>
        if max_tokens < token_count text then text.take (max_tokens * EST_CHAR_PER_TOKEN)
        else text
    | none =>
        if decide ("<html".data <:+: lower) = false then
          if max_tokens < token_count html then html.take (max_tokens * EST_CHAR_PER_TOKEN)
          else html
        else []

/-- processing.py: `is_quality_page(text, source_type)`. -/
def is_quality_page (text : List Char) (source_type : String) : Bool :=
  if text.isEmpty then false
  else if source_type = "semantic_scholar" then decide (100 ≤ text.length)
  else if text.length < 500 then false
  else if HYPE_PATTERNS.any (fun p => decide (p.data <:+: text.map Char.toLower)) then false
  else true

/-- C1: empty text is always rejected; for `semantic_scholar` text the gate
accepts exactly the texts of length at least 100, regardless of hype
phrases; for `web` text it accepts exactly the texts of length at least 500
whose lowercasing contains no hype phrase as a substring. -/
theorem C1_quality_gate (text : List Char) (source_type : String) :
    is_quality_page [] source_type = false
    ∧ (is_quality_page text "semantic_scholar" = true ↔ 100 ≤ text.length)
    ∧ (is_quality_page text "web" = true ↔
        (500 ≤ text.length ∧ ∀ p ∈ HYPE_PATTERNS,
          ¬ ∃ s t, s ++ p.data ++ t = text.map Char.toLower)) := by
  have hinf_iff : ∀ p l : List Char, (p <:+: l) ↔ ∃ s t, s ++ p ++ t = l :=
    fun p l => Iff.rfl
  refine ⟨rfl, ?_, ?_⟩
  · by_cases hE : text.isEmpty
    · rw [List.isEmpty_iff] at hE
      subst hE
      simp [is_quality_page]
    · simp [is_quality_page, hE]
  · have key : is_quality_page text "web"
        = (decide (500 ≤ text.length)
            && !(HYPE_PATTERNS.any fun p => decide (p.data <:+: text.map Char.toLower))) := by
      unfold is_quality_page
      by_cases hE : text.isEmpty
      · rw [List.isEmpty_iff] at hE
        subst hE
        simp
      · rw [if_neg (by simp [hE]), if_neg (by decide)]
        by_cases hlen : text.length < 500
        · rw [if_pos hlen]
          have h5 : decide (500 ≤ text.length) = false := by
            simp only [decide_eq_false_iff_not]
            omega
          simp [h5]
        · rw [if_neg hlen]
          have h5 : decide (500 ≤ text.length) = true := by
            simp only [decide_eq_true_eq]
            omega
          by_cases hyp : (HYPE_PATTERNS.any fun p => decide (p.data <:+: text.map Char.toLower)) = true
          · simp [hyp, h5]
          · simp only [Bool.not_eq_true] at hyp
            simp [hyp, h5]
    rw [key]
    simp only [Bool.and_eq_true, decide_eq_true_eq, Bool.not_eq_true',
      List.any_eq_false, decide_eq_false_iff_not]
    constructor
    · rintro ⟨h5, hall⟩
      exact ⟨h5, fun p hp => by rw [← hinf_iff]; exact hall p hp⟩
    · rintro ⟨h5, hall⟩
      exact ⟨h5, fun p hp => by rw [hinf_iff]; exact hall p hp⟩

/-- C1 witness: the quality gate evaluated at concrete inputs. -/
theorem C1_quality_gate_witness :
    is_quality_page [] "web" = false
    ∧ is_quality_page ("a".data ++ List.replicate 99 'b') "semantic_scholar" = true :=
  ⟨(C1_quality_gate [] "web").1,
   (C1_quality_gate ("a".data ++ List.replicate 99 'b') "web").2.1.mpr (by decide)⟩

/-! ## Semantic deduplication (processing.py, `semantic_dedup`)

The TF-IDF vectorisation and cosine-similarity matrix come from sklearn and
are external; the code consumes them only through the test
`sim_matrix[i, j] > 0.85` and through the `ValueError` raised on an empty
vocabulary.  They are therefore supplied as oracles: `similar i j` models
`sim_matrix[i, j] > 0.85` and `vectorize_fails` models the `ValueError`
fallback.  The texts themselves enter the function only through `len(texts)`
and the similarity matrix, so the embedding takes `n = len(texts)`. -/

/-- State of the greedy selection loop of `semantic_dedup`:
`keep_indices`, `seen_indices` (a Python set, modelled as the list of
elements in insertion order) and whether the `break` has run. -/
structure DedupState where
  keep : List Nat
  seen : List Nat
  broke : Bool
deriving DecidableEq

/-- One iteration of the greedy loop of `semantic_dedup` at index `i`
(`broke = true` models having left the loop via `break`). -/
def dedupStep (similar : Nat → Nat → Bool) (max_keep n : Nat)
    (st : DedupState) (i : Nat) : DedupState :=
  if st.broke then st
  else if i ∈ st.seen then st
  else
    let keep2 := st.keep ++ [i]
    let seen2 := st.seen ++ [i]
    if max_keep ≤ keep2.length then ⟨keep2, seen2, true⟩
    else ⟨keep2, seen2 ++ (List.range n).filter
        (fun j => decide (i < j) && decide (j ∉ seen2) && similar i j), false⟩

/-- The greedy loop of `semantic_dedup` run over indices `0, …, i-1`. -/
def dedupRun (similar : Nat → Nat → Bool) (max_keep n i : Nat) : DedupState :=
  (List.range i).foldl (dedupStep similar max_keep n) ⟨[], [], false⟩

/-- processing.py: `semantic_dedup(texts, max_keep)` with `n = len(texts)`;
the `ValueError` fallback returns `list(range(min(len(texts), max_keep)))`. -/
def semantic_dedup (n : Nat) (vectorize_fails : Bool)
    (similar : Nat → Nat → Bool) (max_keep : Nat) : List Nat :=
  if n = 0 then []
  else if n ≤ 1 then [0]
  else if vectorize_fails then List.range (min n max_keep)
  else (dedupRun similar max_keep n n).keep

lemma dedupRun_succ (similar : Nat → Nat → Bool) (k n i : Nat) :
    dedupRun similar k n (i + 1)
      = dedupStep similar k n (dedupRun similar k n i) i := by
  simp [dedupRun, List.range_succ]

/-- Loop invariant of the greedy selection: the kept indices are strictly
increasing, below the processed prefix, contained in `seen`, capped at
`max_keep`, pairwise dissimilar, and every index similar to a kept one is
marked seen while the loop is still live. -/
lemma dedupRun_inv (similar : Nat → Nat → Bool) (k n : Nat) :
    ∀ i, i ≤ n →
      (dedupRun similar k n i).keep.Sorted (· < ·)
      ∧ (∀ x ∈ (dedupRun similar k n i).keep, x < i)
      ∧ (∀ x ∈ (dedupRun similar k n i).keep, x ∈ (dedupRun similar k n i).seen)
      ∧ (1 ≤ k → ((dedupRun similar k n i).broke = true →
            (dedupRun similar k n i).keep.length = k)
          ∧ ((dedupRun similar k n i).broke = false →
            (dedupRun similar k n i).keep.length < k))
      ∧ ((dedupRun similar k n i).broke = false →
          ∀ a ∈ (dedupRun similar k n i).keep, ∀ j, a < j → j < n →
            similar a j = true → j ∈ (dedupRun similar k n i).seen)
      ∧ (dedupRun similar k n i).keep.Pairwise (fun a b => similar a b = false) := by
  intro i
  induction i with
  | zero =>
    intro _
    refine ⟨List.sorted_nil, ?_, ?_, fun hk => ⟨?_, ?_⟩, ?_, List.Pairwise.nil⟩ <;>
      simp [dedupRun]
    omega
  | succ i ih =>
    intro hin
    have hi : i ≤ n := by omega
    obtain ⟨hsort, hlt, hsub, hcap, hmark, hpair⟩ := ih hi
    rw [dedupRun_succ]
    set st := dedupRun similar k n i with hst
    by_cases hbroke : st.broke
    · rw [dedupStep, if_pos hbroke]
      exact ⟨hsort, fun x hx => Nat.lt_succ_of_lt (hlt x hx), hsub, hcap,
        hmark, hpair⟩
    · rw [Bool.not_eq_true] at hbroke
      by_cases hseen : i ∈ st.seen
      · rw [dedupStep, if_neg (by simp [hbroke]), if_pos hseen]
        exact ⟨hsort, fun x hx => Nat.lt_succ_of_lt (hlt x hx), hsub, hcap,
          hmark, hpair⟩
      · -- the append branch: i is kept
        have hdiss : ∀ a ∈ st.keep, similar a i = false := by
          intro a ha
          by_contra hcon
          rw [Bool.not_eq_false] at hcon
          exact hseen (hmark hbroke a ha i (hlt a ha) (by omega) hcon)
        have hsort2 : (st.keep ++ [i]).Sorted (· < ·) :=
          List.pairwise_append.mpr ⟨hsort, List.pairwise_singleton _ i,
            fun a ha b hb => by rw [List.mem_singleton] at hb; exact hb ▸ hlt a ha⟩
        have hpair2 : (st.keep ++ [i]).Pairwise (fun a b => similar a b = false) := by
          rw [List.pairwise_append]
          exact ⟨hpair, List.pairwise_singleton _ i,
            fun a ha b hb => by rw [List.mem_singleton] at hb; exact hb ▸ hdiss a ha⟩
        have hlt2 : ∀ x ∈ st.keep ++ [i], x < i + 1 := by
          intro x hx
          rcases List.mem_append.mp hx with h | h
          · exact Nat.lt_succ_of_lt (hlt x h)
          · rw [List.mem_singleton] at h; omega
        have hsub2 : ∀ x ∈ st.keep ++ [i], x ∈ st.seen ++ [i] := by
          intro x hx
          rcases List.mem_append.mp hx with h | h
          · exact List.mem_append.mpr (Or.inl (hsub x h))
          · exact List.mem_append.mpr (Or.inr h)
        rw [dedupStep, if_neg (by simp [hbroke]), if_neg hseen]
        by_cases hfull : k ≤ (st.keep ++ [i]).length
        · rw [if_pos hfull]
          refine ⟨hsort2, hlt2, hsub2, fun hk => ⟨fun _ => ?_, fun hco => by simp at hco⟩,
            fun hco => by simp at hco, hpair2⟩
          have := (hcap hk).2 hbroke
          show (st.keep ++ [i]).length = k
          simp only [List.length_append, List.length_singleton] at hfull ⊢
          omega
        · rw [if_neg hfull]
          refine ⟨hsort2, hlt2, ?_, fun hk => ⟨fun hco => by simp at hco, fun _ => ?_⟩,
            ?_, hpair2⟩
          · intro x hx
            exact List.mem_append.mpr (Or.inl (hsub2 x hx))
          · show (st.keep ++ [i]).length < k
            omega
          · intro _ a ha j haj hjn hsim
            show j ∈ (st.seen ++ [i]) ++ List.filter _ (List.range n)
            rcases List.mem_append.mp ha with h | h
            · exact List.mem_append.mpr (Or.inl
                (List.mem_append.mpr (Or.inl (hmark hbroke a h j haj hjn hsim))))
            · rw [List.mem_singleton] at h
              subst h
              by_cases hjseen : j ∈ st.seen ++ [a]
              · exact List.mem_append.mpr (Or.inl hjseen)
              · refine List.mem_append.mpr (Or.inr ?_)
                rw [List.mem_filter]
                exact ⟨List.mem_range.mpr hjn,
                  by simp only [Bool.and_eq_true, decide_eq_true_eq]; exact ⟨⟨haj, hjseen⟩, hsim⟩⟩

/-- When no later index is similar to any earlier one, the greedy loop
keeps the first `min i k` indices and marks nothing extra. -/
lemma dedupRun_all_false (similar : Nat → Nat → Bool) (k n : Nat) (hk : 1 ≤ k)
    (hf : ∀ i j, i < j → j < n → similar i j = false) :
    ∀ i, i ≤ n →
      dedupRun similar k n i
        = ⟨List.range (min i k), List.range (min i k), decide (k ≤ i)⟩ := by
  intro i
  induction i with
  | zero =>
    intro _
    have hbr : decide (k ≤ 0) = false := by
      rw [decide_eq_false_iff_not]
      omega
    have hmin : min 0 k = 0 := by omega
    rw [hbr, hmin]
    rfl
  | succ i ih =>
    intro hin
    rw [dedupRun_succ, ih (by omega)]
    by_cases hki : k ≤ i
    · have hbr : decide (k ≤ i) = true := decide_eq_true hki
      have hbr2 : decide (k ≤ i + 1) = true := decide_eq_true (by omega)
      have hmin : min i k = k := by omega
      have hmin2 : min (i + 1) k = k := by omega
      rw [hbr, hbr2, hmin, hmin2, dedupStep, if_pos rfl]
    · have hbr : decide (k ≤ i) = false := by
        rw [decide_eq_false_iff_not]
        omega
      have hmin : min i k = i := by omega
      rw [hbr, hmin, dedupStep]
      have hnotseen : i ∉ List.range i := by simp
      rw [if_neg (by simp), if_neg hnotseen]
      by_cases hfull : k ≤ (List.range i ++ [i]).length
      · have hk1 : k = i + 1 := by
          simp only [List.length_append, List.length_range, List.length_singleton] at hfull
          omega
        have hmin2 : min (i + 1) k = i + 1 := by omega
        have hbr2 : decide (k ≤ i + 1) = true := decide_eq_true (by omega)
        rw [if_pos hfull, hmin2, hbr2, List.range_succ]
      · have hlen : i + 1 < k := by
          simp only [List.length_append, List.length_range, List.length_singleton] at hfull
          omega
        have hmin2 : min (i + 1) k = i + 1 := by omega
        have hfil : (List.range n).filter
            (fun j => decide (i < j) && decide (j ∉ List.range i ++ [i]) && similar i j)
            = [] := by
          rw [List.filter_eq_nil_iff]
          intro j hj
          rw [List.mem_range] at hj
          by_cases hij : i < j
          · rw [hf i j hij hj]
            simp
          · have hd : decide (i < j) = false := by
              rw [decide_eq_false_iff_not]
              omega
            simp [hd]
        have hbr2 : decide (k ≤ i + 1) = false := by
          rw [decide_eq_false_iff_not]
          omega
        rw [if_neg hfull, hfil, List.append_nil, hmin2, hbr2, List.range_succ]

/-- `semantic_dedup` on pairwise-dissimilar input keeps the first
`min n max_keep` indices (for a positive budget). -/
lemma semantic_dedup_all_false (n k : Nat) (vf : Bool)
    (similar : Nat → Nat → Bool) (hk : 1 ≤ k)
    (hf : ∀ i j, i < j → j < n → similar i j = false) :
    semantic_dedup n vf similar k = List.range (min n k) := by
  unfold semantic_dedup
  by_cases h0 : n = 0
  · subst h0; simp
  · rw [if_neg h0]
    by_cases h1 : n ≤ 1
    · have : n = 1 := by omega
      subst this
      have : min 1 k = 1 := by omega
      rw [if_pos (by omega), this]
      rfl
    · rw [if_neg h1]
      by_cases hvf : vf
      · rw [if_pos hvf]
      · rw [if_neg hvf, dedupRun_all_false similar k n hk hf n (le_refl n)]

/-- The kept-index list of `semantic_dedup` is strictly increasing. -/
lemma semantic_dedup_sorted (n : Nat) (vf : Bool) (similar : Nat → Nat → Bool)
    (k : Nat) : (semantic_dedup n vf similar k).Sorted (· < ·) := by
  unfold semantic_dedup
  by_cases h0 : n = 0
  · simp [h0]
  · rw [if_neg h0]
    by_cases h1 : n ≤ 1
    · rw [if_pos h1]
      exact List.sorted_singleton 0
    · rw [if_neg h1]
      by_cases hvf : vf
      · rw [if_pos hvf]
        exact List.sorted_lt_range _
      · rw [if_neg hvf]
        exact (dedupRun_inv similar k n n (le_refl n)).1

/-- Every kept index of `semantic_dedup` is a valid index of the input. -/
lemma semantic_dedup_bounds (n : Nat) (vf : Bool) (similar : Nat → Nat → Bool)
    (k : Nat) (hn : 1 ≤ n) : ∀ x ∈ semantic_dedup n vf similar k, x < n := by
  unfold semantic_dedup
  rw [if_neg (by omega)]
  by_cases h1 : n ≤ 1
  · rw [if_pos h1]
    intro x hx
    rw [List.mem_singleton] at hx
    omega
  · rw [if_neg h1]
    by_cases hvf : vf
    · rw [if_pos hvf]
      intro x hx
      rw [List.mem_range] at hx
      omega
    · rw [if_neg hvf]
      exact fun x hx => (dedupRun_inv similar k n n (le_refl n)).2.1 x hx

/-- For a positive budget `semantic_dedup` keeps at most `max_keep` indices. -/
lemma semantic_dedup_cap (n : Nat) (vf : Bool) (similar : Nat → Nat → Bool)
    (k : Nat) (hk : 1 ≤ k) : (semantic_dedup n vf similar k).length ≤ k := by
  unfold semantic_dedup
  by_cases h0 : n = 0
  · simp [h0]
  · rw [if_neg h0]
    by_cases h1 : n ≤ 1
    · rw [if_pos h1]
      simpa using hk
    · rw [if_neg h1]
      by_cases hvf : vf
      · rw [if_pos hvf]
        simp only [List.length_range]
        omega
      · rw [if_neg hvf]
        obtain ⟨-, -, -, hcap, -, -⟩ := dedupRun_inv similar k n n (le_refl n)
        rcases hbk : (dedupRun similar k n n).broke with _ | _
        · exact Nat.le_of_lt ((hcap hk).2 hbk)
        · exact Nat.le_of_eq ((hcap hk).1 hbk)

/-- Without the vectorisation fallback, the indices kept by `semantic_dedup`
are pairwise dissimilar. -/
lemma semantic_dedup_pairwise (n : Nat) (similar : Nat → Nat → Bool) (k : Nat) :
    (semantic_dedup n false similar k).Pairwise (fun a b => similar a b = false) := by
  unfold semantic_dedup
  by_cases h0 : n = 0
  · simp [h0]
  · rw [if_neg h0]
    by_cases h1 : n ≤ 1
    · rw [if_pos h1]
      exact List.pairwise_singleton _ 0
    · rw [if_neg h1, if_neg (by simp)]
      exact (dedupRun_inv similar k n n (le_refl n)).2.2.2.2.2

set_option maxRecDepth 40000 in
/-- C2 counterexample: 200 pairwise-distinct texts need not yield 10 kept
indices.  Texts that differ as strings can still vectorise identically
(e.g. differing only in whitespace, which TF-IDF tokenisation discards), so
every pair can exceed the 0.85 similarity threshold; then the greedy pass
keeps only index 0, not `maxKeep = 10`. -/
theorem C2_dedup_counterexample :
    (semantic_dedup 200 false (fun _ _ => true) 10).length = 1
    ∧ ¬ (semantic_dedup 200 false (fun _ _ => true) 10).length = 10 := by
  constructor <;> decide

/-- C2 (amended): for a positive budget `maxKeep < M`, `semantic_dedup`
returns at most `maxKeep` indices, each a valid index of the input, in
strictly ascending original order; it returns exactly the first `maxKeep`
indices (hence exactly 10 of 200 when `maxKeep = 10`) when no pair of
texts crosses the similarity threshold. -/
theorem C2_dedup_cap (n k : Nat) (vf : Bool) (similar : Nat → Nat → Bool)
    (h1 : 1 ≤ k) (h2 : k < n) :
    (semantic_dedup n vf similar k).length ≤ k
    ∧ (∀ x ∈ semantic_dedup n vf similar k, x < n)
    ∧ (semantic_dedup n vf similar k).Sorted (· < ·)
    ∧ ((∀ i j, i < j → j < n → similar i j = false) →
        semantic_dedup n vf similar k = List.range k) := by
  refine ⟨semantic_dedup_cap n vf similar k h1,
    semantic_dedup_bounds n vf similar k (by omega),
    semantic_dedup_sorted n vf similar k, fun hf => ?_⟩
  rw [semantic_dedup_all_false n k vf similar h1 hf]
  congr 1
  omega

/-- C2 witness: 200 pairwise-dissimilar texts with budget 10 keep exactly
the first 10 indices. -/
theorem C2_dedup_cap_witness :
    (semantic_dedup 200 false (fun _ _ => false) 10).length ≤ 10
    ∧ semantic_dedup 200 false (fun _ _ => false) 10 = List.range 10 := by
  have h := C2_dedup_cap 200 10 false (fun _ _ => false) (by omega) (by omega)
  exact ⟨h.1, h.2.2.2 (fun _ _ _ _ => rfl)⟩

/-- C8: deduplication is idempotent for a fixed similarity function.  If
`keep` is the index list retained by a first pass, a second pass on the
retained texts (whose pairwise similarity is that of the texts the kept
indices point to, and with the same vectorisation outcome) retains all of
them, in order, whenever the budget `N` is at least `keep.length`. -/
theorem C8_dedup_idempotent (n k N : Nat) (vf : Bool)
    (similar : Nat → Nat → Bool)
    (hN : (semantic_dedup n vf similar k).length ≤ N) :
    semantic_dedup (semantic_dedup n vf similar k).length vf
      (fun a b => similar ((semantic_dedup n vf similar k).getD a 0)
        ((semantic_dedup n vf similar k).getD b 0)) N
      = List.range (semantic_dedup n vf similar k).length := by
  set keep := semantic_dedup n vf similar k with hkeep
  set m := keep.length with hm
  by_cases hm0 : m = 0
  · rw [hm0]
    unfold semantic_dedup
    simp
  · by_cases hm1 : m = 1
    · rw [hm1]
      unfold semantic_dedup
      rw [if_neg (by omega), if_pos (by omega)]
      rfl
    · -- m ≥ 2
      rcases hvf : vf with _ | _
      · -- vectorisation succeeded: the kept indices are pairwise dissimilar
        have hpw : keep.Pairwise (fun a b => similar a b = false) := by
          rw [hkeep, hvf]
          exact semantic_dedup_pairwise n similar k
        have hf2 : ∀ a b, a < b → b < m →
            (fun a b => similar (keep.getD a 0) (keep.getD b 0)) a b = false := by
          intro a b hab hbm
          have ha : a < keep.length := by omega
          have hb : b < keep.length := by omega
          show similar (keep.getD a 0) (keep.getD b 0) = false
          rw [List.getD_eq_get _ 0 ha, List.getD_eq_get _ 0 hb]
          exact List.pairwise_iff_get.mp hpw ⟨a, ha⟩ ⟨b, hb⟩ hab
        rw [semantic_dedup_all_false m N false _ (by omega) hf2]
        congr 1
        omega
      · -- vectorisation failed on the corpus, hence also on the subset
        unfold semantic_dedup
        rw [if_neg hm0, if_neg (by omega), if_pos rfl]
        congr 1
        omega

/-- C8 witness: a concrete first pass (5 texts, each similar only to its
successor, budget 3) keeps `[0, 2, 4]`; the second pass at budget 5 keeps
all of them. -/
theorem C8_dedup_idempotent_witness :
    semantic_dedup
        (semantic_dedup 5 false (fun i j => decide (j = i + 1)) 3).length false
        (fun a b =>
          (fun i j => decide (j = i + 1))
            ((semantic_dedup 5 false (fun i j => decide (j = i + 1)) 3).getD a 0)
            ((semantic_dedup 5 false (fun i j => decide (j = i + 1)) 3).getD b 0)) 5
      = List.range (semantic_dedup 5 false (fun i j => decide (j = i + 1)) 3).length :=
  C8_dedup_idempotent 5 3 5 false (fun i j => decide (j = i + 1)) (by decide)

/-! ## Retry loops (search.py, `brave_search` and `semantic_search`)

Both fetchers share the same retry structure:
`for attempt in range(max_retries + 1)`, making one API call per iteration;
HTTP 429 backs off `backoff * 2 ** attempt` seconds and retries (until the
budget is exhausted, which returns `[]`); any other non-200 status returns
`[]`; a connection exception sleeps 1 second and retries (returning `[]` on
the last attempt); HTTP 200 breaks out with the payload.  The remote
endpoint is an oracle `responses : Nat → Option Nat` giving the HTTP status
of each successive call (`none` models a connection exception). -/

/-- The shared retry loop.  `fuel` is the number of remaining loop
iterations; the result is `(outcome, calls made, seconds slept)`, where the
outcome is `some attempt` on success (HTTP 200 at that attempt) and `none`
when the query degrades to an empty result. -/
def api_retry_go (responses : Nat → Option Nat) (backoff max_retries : Nat) :
    Nat → Nat → Nat → Option Nat × Nat × Nat
  | 0, attempt, slept => (none, attempt, slept)
  | fuel + 1, attempt, slept =>
    match responses attempt with
    | none =>
      if attempt = max_retries then (none, attempt + 1, slept)
      else api_retry_go responses backoff max_retries fuel (attempt + 1) (slept + 1)
    | some st =>
      if st = 429 then
        if attempt < max_retries then
          api_retry_go responses backoff max_retries fuel (attempt + 1)
            (slept + backoff * 2 ^ attempt)
        else (none, attempt + 1, slept)
      else if st = 200 then (some attempt, attempt + 1, slept)
      else (none, attempt + 1, slept)

/-- The retry loop of `brave_search` (`backoff = 1`, `max_retries = 3`) and
of `semantic_search` (`backoff = 2`, `max_retries = 5`), run from the
first attempt. -/
def api_retry_loop (responses : Nat → Option Nat) (backoff max_retries : Nat) :
    Option Nat × Nat × Nat :=
  api_retry_go responses backoff max_retries (max_retries + 1) 0 0

/-- The endpoint of the C4 scenario: HTTP 429 for the first three calls,
then HTTP 200. -/
def statuses_429x3 : Nat → Option Nat :=
  fun call => if call < 3 then some 429 else some 200

/-- C4 counterexample: with `brave_search`'s retry parameters
(`backoff base = 1`, `max_retries = 3`), an endpoint answering 429 three
times and then 200 leads to success after 4 underlying calls with
`1 + 2 + 4 = 7` seconds of cumulative backoff — not 3 calls and
`base*1 + base*2 = 3` seconds as claimed. -/
theorem C4_retry_counterexample :
    api_retry_loop statuses_429x3 1 3 = (some 3, 4, 7)
    ∧ ¬ ((api_retry_loop statuses_429x3 1 3).2.1 = 3
          ∧ (api_retry_loop statuses_429x3 1 3).2.2 = 1 * 1 + 1 * 2) := by
  constructor <;> decide

/-- C4 (amended): for every backoff base, an endpoint answering HTTP 429
three times and then HTTP 200 makes the `brave_search` retry loop succeed
(at attempt 3) after exactly 4 underlying API calls and a cumulative
exponential backoff of `base*1 + base*2 + base*4` seconds. -/
theorem C4_retry_backoff (base : Nat) :
    api_retry_loop statuses_429x3 base 3
      = (some 3, 4, base * 1 + base * 2 + base * 4) := by
  simp only [api_retry_loop, api_retry_go, statuses_429x3]
  norm_num

/-! ## Relevance gate (search.py, `check_relevance`) -/

/-- search.py: `"YES" in response.upper()`. -/
def contains_yes (response : String) : Bool :=
  decide ("YES".data <:+: response.data.map Char.toUpper)

/-- search.py: `check_relevance(subject, title, abstract)`.  The Gemini
judge is external; its text response is the oracle `judge` (the error path
of `gemini_complete` returns `""`, which is just one possible response).
`abstract` is `Option String` because `process_paper` passes
`p.get("abstract")`; `if not abstract` is falsy for both `None` and `""`. -/
def check_relevance (subject title : String) (abstract : Option String)
    (judge : String) : Bool :=
  if abstract.getD "" = "" then false
  else contains_yes judge

/-- C5: with an empty or absent abstract the relevance gate answers false
and its result does not depend on the judge's response (the judge is never
invoked); otherwise it answers true exactly when the response contains
"YES" case-insensitively (any other response, including the empty error
response, means not relevant). -/
theorem C5_relevance_gate (subject title : String) (abstract : Option String)
    (judge judge2 : String) :
    (abstract.getD "" = "" →
      check_relevance subject title abstract judge = false
      ∧ check_relevance subject title abstract judge
          = check_relevance subject title abstract judge2)
    ∧ (∀ a : String, abstract = some a → a ≠ "" →
        (check_relevance subject title abstract judge = true ↔
          ∃ s t, s ++ "YES".data ++ t = judge.data.map Char.toUpper)) := by
  constructor
  · intro h
    rw [check_relevance, if_pos h, check_relevance, if_pos h]
    exact ⟨rfl, rfl⟩
  · intro a ha hne
    have h : abstract.getD "" = a := by rw [ha]; rfl
    rw [check_relevance, if_neg (by rw [h]; exact hne)]
    rw [contains_yes, decide_eq_true_eq]
    exact Iff.rfl

/-- C5 witness: an absent abstract is rejected independently of the judge;
a present abstract is accepted exactly on a "yes, ..." style response. -/
theorem C5_relevance_gate_witness :
    (check_relevance "s" "t" none "YES" = false
      ∧ check_relevance "s" "t" none "YES" = check_relevance "s" "t" none "no")
    ∧ check_relevance "s" "t" (some "an abstract") "yes!" = true :=
  ⟨(C5_relevance_gate "s" "t" none "YES" "no").1 rfl,
   ((C5_relevance_gate "s" "t" (some "an abstract") "yes!" "").2 "an abstract" rfl
     (by decide)).mpr ⟨[], "!".data.map Char.toUpper, by decide⟩⟩

/-! ## Academic paper processing (search.py, `process_paper`) -/

/-- A paper record as returned by the Semantic Scholar API: the fields
`process_paper` reads, each `Option` because the JSON key may be absent.
`openAccessPdfUrl` models `(p.get("openAccessPdf") or {}).get("url")`. -/
structure Paper where
  title : Option String
  abstract : Option String
  citationCount : Option Int
  url : Option String
  openAccessPdfUrl : Option String
  year : Option Int
  venue : Option String
  authors : List String
deriving DecidableEq

/-- Python's `a or b` for an optional string `a` (falsy on `None` and `""`). -/
def py_or_str (a : Option String) (b : String) : String :=
  match a with
  | none => b
  | some s => if s = "" then b else s

/-- search.py: `process_paper(session, p)` inside `semantic_search`.
`minCit` is the configurable `MIN_CITATION_COUNT` (default 3); `judge` is
the Gemini response oracle used by the relevance gate; `fetched` is the
full-text fetch oracle (`""` models a failed or empty fetch). -/
def process_paper (minCit : Int) (subject : String) (judge : String)
    (fetched : String) (p : Paper) : Option Snippet :=
  let citation_count : Int := p.citationCount.getD 0
  if citation_count < minCit then none
  else
    let title := p.title.getD "No Title"
    if subject ≠ "" ∧ check_relevance subject title p.abstract judge = false then none
    else
      let meta := Metadata.academic p.year p.venue citation_count p.authors
        p.openAccessPdfUrl.isSome
      let url := py_or_str p.openAccessPdfUrl (py_or_str p.url "")
      let body0 : String :=
        if 200 ≤ (p.abstract.getD "").length then p.abstract.getD ""
        else if url ≠ "" then
          (if fetched ≠ "" ∧ (p.abstract.getD "").length < fetched.length then fetched
           else "")
        else ""
      let body := if body0 = "" then py_or_str p.abstract "Abstract not available."
        else body0
      some { title := title, body := body.data, url := some url, ref_num := none,
             source_type := "semantic_scholar", metadata := meta,
             abstract := p.abstract }

/-- C6: the citation gate rejects a paper exactly when its citation count
(an absent `citationCount` counting as 0) is below `MIN_CITATION_COUNT`:
below the threshold the paper is dropped whatever the judge says; an
absent count behaves identically to a count of 0; and at or above the
threshold (with a nonempty subject) the paper is dropped exactly when the
relevance gate rejects it. -/
theorem C6_citation_gate (minCit : Int) (subject judge fetched : String)
    (p : Paper) :
    (p.citationCount.getD 0 < minCit →
      process_paper minCit subject judge fetched p = none)
    ∧ process_paper minCit subject judge fetched { p with citationCount := none }
        = process_paper minCit subject judge fetched { p with citationCount := some 0 }
    ∧ (minCit ≤ p.citationCount.getD 0 → subject ≠ "" →
        (process_paper minCit subject judge fetched p = none ↔
          check_relevance subject (p.title.getD "No Title") p.abstract judge
            = false)) := by
  refine ⟨fun hlt => ?_, rfl, fun hge hsub => ?_⟩
  · rw [process_paper, if_pos hlt]
  · rw [process_paper, if_neg (by omega)]
    by_cases hrel : check_relevance subject (p.title.getD "No Title") p.abstract judge
        = false
    · rw [if_pos ⟨hsub, hrel⟩]
      simp [hrel]
    · rw [if_neg (fun h => hrel h.2)]
      simp only [Bool.not_eq_false] at hrel
      simp [hrel]

/-- C6 witness: a relevant paper (judge answers YES) with `citationCount`
2 under the default threshold 3 is dropped by `process_paper`, hence never
reaches the academic fetcher's output. -/
theorem C6_citation_gate_witness :
    process_paper 3 "topic" "YES" ""
      { title := some "p", abstract := some "an abstract", citationCount := some 2,
        url := some "u", openAccessPdfUrl := none, year := none, venue := none,
        authors := [] } = none :=
  (C6_citation_gate 3 "topic" "YES" ""
    { title := some "p", abstract := some "an abstract", citationCount := some 2,
      url := some "u", openAccessPdfUrl := none, year := none, venue := none,
      authors := [] }).1 (by decide)

/-! ## Content extractor (processing.py, `compress_text`) — claim C7 -/

/-- C7 counterexample: `compress_text` does not treat every non-markup
input as plain text: the initial guard `if not html or len(html) < 10`
empties every input shorter than 10 characters, although `"hello"` is not
markup and would not be truncated (`token_count "hello" = 1 ≤ 100`). -/
theorem C7_compress_counterexample :
    compress_text (fun _ => none) "hello".data 100 = []
    ∧ ¬ compress_text (fun _ => none) "hello".data 100 = "hello".data := by
  constructor <;> decide

/-- C7 (amended): inputs shorter than 10 characters (including empty input)
always yield empty output; for inputs of length at least 10: a non-markup
input (structural-tag heuristic negative) is returned as-is subject only to
token-budget truncation, and when the extraction oracle on markup input
fails (returns nothing or empty text) the raw input is returned subject
only to truncation — unless the input contains `"<html"`, in which case
the result is empty. -/
theorem C7_compress_fallback (extract : List Char → Option (List Char))
    (html : List Char) (max_tokens : Nat) :
    (html.length < 10 → compress_text extract html max_tokens = [])
    ∧ (10 ≤ html.length →
        looks_like_html (html.map Char.toLower) = false →
        compress_text extract html max_tokens
          = (if max_tokens < token_count html
             then html.take (max_tokens * EST_CHAR_PER_TOKEN) else html))
    ∧ (10 ≤ html.length →
        looks_like_html (html.map Char.toLower) = true →
        (extract html = none ∨ extract html = some []) →
        ((decide ("<html".data <:+: html.map Char.toLower) = false →
            compress_text extract html max_tokens
              = (if max_tokens < token_count html
                 then html.take (max_tokens * EST_CHAR_PER_TOKEN) else html))
          ∧ (decide ("<html".data <:+: html.map Char.toLower) = true →
            compress_text extract html max_tokens = []))) := by
  refine ⟨fun hshort => ?_, fun hlen hplain => ?_, fun hlen hmark hfail => ⟨?_, ?_⟩⟩
  · rw [compress_text, if_pos hshort]
  · rw [compress_text, if_neg (by omega)]
    simp only [hplain]
    rfl
  · intro hnotag
    rw [compress_text, if_neg (by omega)]
    simp only [hmark]
    rcases hfail with h | h
    · simp only [h, hnotag]
      rfl
    · simp only [h, hnotag]
      rfl
  · intro htag
    rw [compress_text, if_neg (by omega)]
    simp only [hmark]
    rcases hfail with h | h
    · simp only [h, htag]
      rfl
    · simp only [h, htag]
      rfl

/-- C7 witness: an 11-character plain-text input passes through unchanged;
an extraction failure on `"<div"`-style markup without `"<html"` falls back
to the raw input; an extraction failure on `"<html"` markup yields empty. -/
theorem C7_compress_fallback_witness :
    compress_text (fun _ => none) "0123456789x".data 100 = "0123456789x".data
    ∧ compress_text (fun _ => none) "<div>abcd</div>".data 100
        = "<div>abcd</div>".data
    ∧ compress_text (fun _ => none) "<html>ab</html>".data 100 = [] := by
  refine ⟨?_, ?_, ?_⟩
  · rw [(C7_compress_fallback (fun _ => none) "0123456789x".data 100).2.1
      (by decide) (by decide)]
    decide
  · rw [((C7_compress_fallback (fun _ => none) "<div>abcd</div>".data 100).2.2
      (by decide) (by decide) (Or.inl rfl)).1 (by decide)]
    decide
  · exact ((C7_compress_fallback (fun _ => none) "<html>ab</html>".data 100).2.2
      (by decide) (by decide) (Or.inl rfl)).2 (by decide)

/-! ## Source orchestration (search.py, `brave_search`, `semantic_search`,
`search_all`) — claim C3

Each query's interaction with the network is bundled into one oracle:
the HTTP status of each retry-loop call, the parsed payload on success,
and the per-URL page-fetch results.  Both fetchers catch every per-item
exception internally and degrade to an empty list, so they are total
functions of their oracle: in this embedding "never raises to the caller"
is the totality of the model, and the interesting residue — a failing
query contributes `[]` and the pool is web results then academic results,
each in query order — is proved below. -/

/-- One entry of `data["web"]["results"]` in a Brave response. -/
structure WebResult where
  url : Option String
  title : Option String
  description : Option String
deriving DecidableEq

/-- The network oracle of one `brave_search` query: retry-loop statuses,
the parsed result list of the successful response, and the page-fetch
outcome per URL (`""` models a failed fetch or non-200 page). -/
structure BraveOracle where
  statuses : Nat → Option Nat
  results : List WebResult
  fetch : String → String

/-- search.py: `brave_search(query, session, semaphore)`.  Mirrors the
code: results with a falsy `url` (absent or empty) are skipped when
building fetch tasks, and `zip(results, contents)` then pairs the full
result list with the fetched contents; results whose content is falsy are
dropped. -/
def brave_search (o : BraveOracle) : List Snippet :=
  match (api_retry_loop o.statuses 1 3).1 with
  | none => []
  | some _ =>
    let contents := (o.results.filterMap
      (fun r => if r.url.getD "" = "" then none else r.url)).map o.fetch
    (o.results.zip contents).filterMap (fun rc =>
      if rc.2 = "" then none
      else some { title := rc.1.title.getD "No Title", body := rc.2.data,
                  url := rc.1.url, ref_num := none, source_type := "web",
                  metadata := Metadata.web rc.1.description, abstract := none })

/-- The network oracle of one `semantic_search` query: retry-loop statuses
and, per returned paper, the paper record with its judge response and
full-text fetch result. -/
structure AcadOracle where
  statuses : Nat → Option Nat
  papers : List (Paper × String × String)

/-- search.py: `semantic_search(query, semaphore, subject)`: the retry
loop (backoff 2, up to 5 retries), then `process_paper` on every returned
paper, keeping the non-`None` results in paper order. -/
def semantic_search (minCit : Int) (subject : String) (o : AcadOracle) :
    List Snippet :=
  match (api_retry_loop o.statuses 2 5).1 with
  | none => []
  | some _ =>
    o.papers.filterMap (fun t => process_paper minCit subject t.2.1 t.2.2 t.1)

/-- search.py: `search_all(keywords_dict, subject)`: one task per general
query and one per academic query; `asyncio.gather` keeps task order, and
the two `extend` loops append all web result lists, then all academic
result lists. -/
def search_all (minCit : Int) (subject : String)
    (wos : List BraveOracle) (aos : List AcadOracle) : List Snippet :=
  let brave_results := wos.map brave_search
  let semantic_results := aos.map (semantic_search minCit subject)
  semantic_results.foldl (fun acc r => acc ++ r)
    (brave_results.foldl (fun acc r => acc ++ r) [])

lemma foldl_append_eq_flatten (l : List (List Snippet)) (init : List Snippet) :
    l.foldl (fun acc r => acc ++ r) init = init ++ l.flatten := by
  induction l generalizing init with
  | nil => simp
  | cons a l ih => simp [ih, List.append_assoc]

/-- C3: the pool returned by `search_all` is the concatenation of the web
queries' result lists in query order followed by the academic queries'
result lists in query order; a query whose retry loop fails contributes
the empty list, and if every query fails the pool is empty (a valid,
non-exceptional outcome — in this embedding every fetcher is a total
function, the analogue of "no per-item exception reaches the caller"). -/
theorem C3_search_all (minCit : Int) (subject : String)
    (wos : List BraveOracle) (aos : List AcadOracle) :
    search_all minCit subject wos aos
      = (wos.map brave_search).flatten
        ++ (aos.map (semantic_search minCit subject)).flatten
    ∧ (∀ o ∈ wos, (api_retry_loop o.statuses 1 3).1 = none →
        brave_search o = [])
    ∧ (∀ o ∈ aos, (api_retry_loop o.statuses 2 5).1 = none →
        semantic_search minCit subject o = [])
    ∧ ((∀ o ∈ wos, brave_search o = []) →
        (∀ o ∈ aos, semantic_search minCit subject o = []) →
        search_all minCit subject wos aos = []) := by
  have hmain : search_all minCit subject wos aos
      = (wos.map brave_search).flatten
        ++ (aos.map (semantic_search minCit subject)).flatten := by
    rw [search_all, foldl_append_eq_flatten, foldl_append_eq_flatten, List.nil_append]
  refine ⟨hmain, fun o _ hfail => ?_, fun o _ hfail => ?_, fun hw ha => ?_⟩
  · rw [brave_search, hfail]
  · rw [semantic_search, hfail]
  · rw [hmain]
    have h1 : (wos.map brave_search).flatten = [] := by
      rw [List.flatten_eq_nil_iff]
      intro l hl
      rw [List.mem_map] at hl
      obtain ⟨o, ho, rfl⟩ := hl
      exact hw o ho
    have h2 : (aos.map (semantic_search minCit subject)).flatten = [] := by
      rw [List.flatten_eq_nil_iff]
      intro l hl
      rw [List.mem_map] at hl
      obtain ⟨o, ho, rfl⟩ := hl
      exact ha o ho
    rw [h1, h2, List.nil_append]

/-- An always-throttled web query (HTTP 429 on every call). -/
def brave_fail : BraveOracle :=
  { statuses := fun _ => some 429, results := [], fetch := fun _ => "" }

/-- An academic query that always hits a connection error. -/
def acad_fail : AcadOracle :=
  { statuses := fun _ => none, papers := [] }

/-- C3 witness: a batch of one failing web query and one failing academic
query completes with an empty pool instead of raising. -/
theorem C3_search_all_witness :
    search_all 3 "" [brave_fail] [acad_fail] = [] := by
  have h := C3_search_all 3 "" [brave_fail] [acad_fail]
  refine h.2.2.2 ?_ ?_
  · intro o ho
    rw [List.mem_singleton] at ho
    subst ho
    exact h.2.1 brave_fail (List.mem_singleton.mpr rfl) (by decide)
  · intro o ho
    rw [List.mem_singleton] at ho
    subst ho
    exact h.2.2.1 acad_fail (List.mem_singleton.mpr rfl) (by decide)


/-! ## Filter-and-dedup pipeline (core.py, `filter_snippets`) — C9, C10 -/

/-- The loop body of `filter_snippets`: compress the record's body and
retain the record (paired with its compressed text) when the text is
truthy and passes the quality gate. -/
def quality_pair (extract : List Char → Option (List Char)) (max_tokens : Nat)
    (s : Snippet) : Option (Snippet × List Char) :=
  let txt := compress_text extract s.body max_tokens
  if txt ≠ [] ∧ is_quality_page txt s.source_type = true then some (s, txt)
  else none

/-- core.py: `filter_snippets(snippets)`: compress each body, keep the
records whose compressed text is truthy and passes the quality gate, run
`semantic_dedup` on the retained bodies — with its hardcoded default
budget of 100, since core.py passes no `max_keep` argument — and return
the retained records with their body overwritten by the compressed text. -/
def filter_snippets (extract : List Char → Option (List Char))
    (vectorize_fails : Bool) (similar : Nat → Nat → Bool)
    (max_tokens : Nat) (snippets : List Snippet) : List Snippet :=
  let pairs := snippets.filterMap (quality_pair extract max_tokens)
  if pairs.isEmpty then []
  else
    let keep_idx := semantic_dedup pairs.length vectorize_fails similar 100
    keep_idx.filterMap (fun i => pairs[i]?.map (fun p => { p.1 with body := p.2 }))

/-- Selecting along a strictly increasing index list yields a sublist of
the suffix from the least allowed position. -/
lemma filterMap_getElem_sublist_drop {α : Type} :
    ∀ (idx : List Nat) (l : List α) (m : Nat), idx.Pairwise (· < ·) →
      (∀ i ∈ idx, m ≤ i) → (idx.filterMap (fun i => l[i]?)).Sublist (l.drop m)
  | [], _, _, _, _ => by simp
  | i :: rest, l, m, hpw, hbd => by
    have hpw2 : rest.Pairwise (· < ·) := (List.pairwise_cons.mp hpw).2
    have hgt : ∀ j ∈ rest, i < j := (List.pairwise_cons.mp hpw).1
    have ih : (rest.filterMap (fun i => l[i]?)).Sublist (l.drop (i + 1)) :=
      filterMap_getElem_sublist_drop rest l (i + 1) hpw2 (fun j hj => hgt j hj)
    have hmi : m ≤ i := hbd i (List.mem_cons_self i rest)
    have hdrop1 : (l.drop (i + 1)).Sublist (l.drop m) := by
      have heq : l.drop (i + 1) = (l.drop m).drop (i + 1 - m) := by
        rw [List.drop_drop]
        congr 1
        omega
      rw [heq]
      exact List.drop_sublist _ _
    rw [List.filterMap_cons]
    cases h : l[i]? with
    | none => exact ih.trans hdrop1
    | some a =>
      have hlt : i < l.length := by
        by_contra hcon
        rw [List.getElem?_eq_none (by omega)] at h
        exact Option.noConfusion h
      have ha : a = l[i] := by
        rw [List.getElem?_eq_getElem hlt] at h
        exact (Option.some_inj.mp h).symm
      have hdi : l.drop i = l[i] :: l.drop (i + 1) := List.drop_eq_getElem_cons hlt
      have step : (a :: rest.filterMap (fun i => l[i]?)).Sublist (l.drop i) := by
        rw [hdi, ha]
        exact ih.cons₂ _
      have hdropm : (l.drop i).Sublist (l.drop m) := by
        have heq : l.drop i = (l.drop m).drop (i - m) := by
          rw [List.drop_drop]
          congr 1
          omega
        rw [heq]
        exact List.drop_sublist _ _
      exact step.trans hdropm

lemma filterMap_getElem_sublist {α : Type} (idx : List Nat) (l : List α)
    (hpw : idx.Pairwise (· < ·)) :
    (idx.filterMap (fun i => l[i]?)).Sublist l := by
  have h := filterMap_getElem_sublist_drop idx l 0 hpw (fun i _ => Nat.zero_le i)
  simpa using h

/-- A `filterMap` whose function is an if-then-`some`-else-`none` is the
`map` of the `filter`. -/
lemma filterMap_ite_eq_map_filter {α β : Type} (P : α → Prop) [DecidablePred P]
    (g : α → β) :
    ∀ l : List α, (l.filterMap (fun s => if P s then some (g s) else none))
      = (l.filter (fun s => decide (P s))).map g
  | [] => rfl
  | a :: l => by
    by_cases h : P a
    · simp [List.filterMap_cons, List.filter_cons, h,
        filterMap_ite_eq_map_filter P g l]
    · simp [List.filterMap_cons, List.filter_cons, h,
        filterMap_ite_eq_map_filter P g l]

lemma quality_pair_eq (extract : List Char → Option (List Char))
    (max_tokens : Nat) :
    quality_pair extract max_tokens
      = fun s =>
          if (compress_text extract s.body max_tokens ≠ []
              ∧ is_quality_page (compress_text extract s.body max_tokens)
                  s.source_type = true)
          then some (s, compress_text extract s.body max_tokens) else none := rfl

/-- The retained record list is a sublist of `pairs.map ⟨body-overwrite⟩`,
and `pairs` is the quality-filter of the input mapped to (record, text). -/
lemma filter_snippets_sublist (extract : List Char → Option (List Char))
    (vectorize_fails : Bool) (similar : Nat → Nat → Bool)
    (max_tokens : Nat) (snippets : List Snippet) :
    (filter_snippets extract vectorize_fails similar max_tokens snippets).Sublist
      (snippets.map (fun s =>
        { s with body := compress_text extract s.body max_tokens })) := by
  rw [filter_snippets]
  by_cases hE : (snippets.filterMap (quality_pair extract max_tokens)).isEmpty
  · rw [if_pos hE]
    exact List.nil_sublist _
  · rw [if_neg hE]
    have hswap : (fun (i : Nat) =>
        (snippets.filterMap (quality_pair extract max_tokens))[i]?.map
          (fun p => { p.1 with body := p.2 }))
        = fun (i : Nat) => ((snippets.filterMap (quality_pair extract max_tokens)).map
            (fun p => { p.1 with body := p.2 }))[i]? := by
      funext i
      rw [List.getElem?_map]
    rw [hswap]
    have hsel := filterMap_getElem_sublist
      (semantic_dedup (snippets.filterMap (quality_pair extract max_tokens)).length
        vectorize_fails similar 100)
      ((snippets.filterMap (quality_pair extract max_tokens)).map
        (fun p => { p.1 with body := p.2 }))
      (semantic_dedup_sorted _ vectorize_fails similar 100)
    have hcomp : ((snippets.filterMap (quality_pair extract max_tokens)).map
          (fun p => { p.1 with body := p.2 }))
        = (snippets.filter (fun s =>
            decide (compress_text extract s.body max_tokens ≠ []
              ∧ is_quality_page (compress_text extract s.body max_tokens)
                  s.source_type = true))).map
            (fun s => { s with body := compress_text extract s.body max_tokens }) := by
      rw [quality_pair_eq, filterMap_ite_eq_map_filter, List.map_map]
      rfl
    have h2 : ((snippets.filterMap (quality_pair extract max_tokens)).map
          (fun p => { p.1 with body := p.2 })).Sublist
        (snippets.map (fun s =>
          { s with body := compress_text extract s.body max_tokens })) := by
      rw [hcomp]
      exact (List.filter_sublist _).map _
    exact hsel.trans h2

/-- Every retained record is an input record with only its body replaced
by its compressed text. -/
lemma filter_snippets_mem (extract : List Char → Option (List Char))
    (vectorize_fails : Bool) (similar : Nat → Nat → Bool)
    (max_tokens : Nat) (snippets : List Snippet) (r : Snippet)
    (hr : r ∈ filter_snippets extract vectorize_fails similar max_tokens snippets) :
    ∃ s ∈ snippets,
      r = { s with body := compress_text extract s.body max_tokens } := by
  have hsub := filter_snippets_sublist extract vectorize_fails similar max_tokens
    snippets
  have hmem : r ∈ snippets.map (fun s =>
      { s with body := compress_text extract s.body max_tokens }) :=
    hsub.subset hr
  rw [List.mem_map] at hmem
  obtain ⟨s, hs, heq⟩ := hmem
  exact ⟨s, hs, heq.symm⟩

/-- C9 (amended): `filter_snippets` returns at most 100 records — the
hardcoded default `max_keep` of `semantic_dedup`.  core.py does not import
the configured `MAX_SNIPPETS_TO_KEEP` (config.py), so the configured
maximum bounds the pipeline's output only when it equals 100. -/
theorem C9_filter_cap (extract : List Char → Option (List Char))
    (vectorize_fails : Bool) (similar : Nat → Nat → Bool)
    (max_tokens : Nat) (snippets : List Snippet) :
    (filter_snippets extract vectorize_fails similar max_tokens snippets).length
      ≤ 100 := by
  rw [filter_snippets]
  by_cases hE : (snippets.filterMap (quality_pair extract max_tokens)).isEmpty
  · rw [if_pos hE]
    simp
  · rw [if_neg hE]
    calc (List.filterMap _ (semantic_dedup
            (snippets.filterMap (quality_pair extract max_tokens)).length
            vectorize_fails similar 100)).length
        ≤ (semantic_dedup
            (snippets.filterMap (quality_pair extract max_tokens)).length
            vectorize_fails similar 100).length := List.length_filterMap_le _ _
      _ ≤ 100 := semantic_dedup_cap _ _ _ 100 (by omega)

/-- The always-failing extraction oracle (plain text passes through
`compress_text` without invoking it). -/
def extract_fail : List Char → Option (List Char) := fun _ => none

/-- The all-dissimilar similarity oracle. -/
def similar_never : Nat → Nat → Bool := fun _ _ => false

/-- A `len`-character plain-text academic record. -/
def acad_snip (len : Nat) : Snippet :=
  { title := "t", body := List.replicate len 'a', url := none, ref_num := none,
    source_type := "semantic_scholar", metadata := Metadata.emptyMeta,
    abstract := none }

set_option maxRecDepth 40000 in
/-- C9 counterexample: with the maximum-retained-records setting configured
to `N = 5`, seven quality academic records (pairwise-dissimilar plain-text
bodies of 100–106 characters) all survive `filter_snippets` — 7 > 5.  The
configured value never reaches the pipeline; its cap is the hardcoded 100. -/
theorem C9_filter_cap_counterexample :
    ¬ ((filter_snippets extract_fail false similar_never 2000
          ((List.range 7).map (fun i => acad_snip (100 + i)))).length ≤ 5) := by
  decide

/-- C10: `filter_snippets` returns a subsequence (in input order) of the
input records with only the body field rewritten (to the compressed,
quality-approved text): every returned record agrees with an input record
on title, url, source kind, metadata, abstract and reference number, and
its body is that record's compressed body. -/
theorem C10_filter_frame (extract : List Char → Option (List Char))
    (vectorize_fails : Bool) (similar : Nat → Nat → Bool)
    (max_tokens : Nat) (snippets : List Snippet) (r : Snippet)
    (hr : r ∈ filter_snippets extract vectorize_fails similar max_tokens snippets) :
    (filter_snippets extract vectorize_fails similar max_tokens snippets).Sublist
        (snippets.map (fun s =>
          { s with body := compress_text extract s.body max_tokens }))
    ∧ ∃ s ∈ snippets, r.title = s.title ∧ r.url = s.url
        ∧ r.source_type = s.source_type ∧ r.metadata = s.metadata
        ∧ r.abstract = s.abstract ∧ r.ref_num = s.ref_num
        ∧ r.body = compress_text extract s.body max_tokens := by
  refine ⟨filter_snippets_sublist extract vectorize_fails similar max_tokens
    snippets, ?_⟩
  obtain ⟨s, hs, heq⟩ := filter_snippets_mem extract vectorize_fails similar
    max_tokens snippets r hr
  subst heq
  exact ⟨s, hs, rfl, rfl, rfl, rfl, rfl, rfl, rfl⟩

/-- A 500-character plain-text web record whose body survives compression
unchanged. -/
def web_snip : Snippet :=
  { title := "w", body := List.replicate 500 'a', url := some "u",
    ref_num := none, source_type := "web", metadata := Metadata.emptyMeta,
    abstract := none }

set_option maxRecDepth 40000 in
/-- C10 witness: on a one-record input the pipeline keeps the record; the
frame theorem instantiated there exhibits the untouched fields. -/
theorem C10_filter_frame_witness :
    (filter_snippets extract_fail false similar_never 2000 [web_snip]).Sublist
        ([web_snip].map (fun s =>
          { s with body := compress_text extract_fail s.body 2000 }))
    ∧ ∃ s ∈ [web_snip], web_snip.title = s.title ∧ web_snip.url = s.url
        ∧ web_snip.source_type = s.source_type ∧ web_snip.metadata = s.metadata
        ∧ web_snip.abstract = s.abstract ∧ web_snip.ref_num = s.ref_num
        ∧ web_snip.body = compress_text extract_fail s.body 2000 :=
  C10_filter_frame extract_fail false similar_never 2000 [web_snip] web_snip
    (by decide)

/-- C4 witness: the amended retry scenario evaluated at backoff base 5. -/
theorem C4_retry_backoff_witness :
    api_retry_loop statuses_429x3 5 3 = (some 3, 4, 5 * 1 + 5 * 2 + 5 * 4) :=
  C4_retry_backoff 5

/-- C9 witness: the 100-record cap evaluated on the empty input. -/
theorem C9_filter_cap_witness :
    (filter_snippets extract_fail false similar_never 2000 []).length ≤ 100 :=
  C9_filter_cap extract_fail false similar_never 2000 []

end DeepResearch
